import Mathlib

/-!
Verification of the device-dispatch and passthrough subsystem of a
firecracker-derived microVM monitor.

This file shallowly embeds, in Lean, the parts of the Rust source that the
verified properties are about:

- the synthetic I/O `Bus` (src/vmm/src/devices/bus.rs): PIO range lookup,
  MMIO slot dispatch, and `insert`;
- the VFIO passthrough config-space emulation (src/vmm/src/vfio/mod.rs):
  `BarInfo`, `ExpansionRomInfo`, `RegisterMask`, `MsixCap`,
  `read_config_register` / `write_config_register`, the extended-capability
  walk that records register masks, `vfio_device_region_read` /
  `vfio_device_region_write`, and the MSI-X table/PBA hole computation of
  `mmap_bars`;
- the synchronous block back-end (devices/virtio/block/virtio/io/sync_io.rs):
  the pread/pwrite retry loops of `SyncFileEngine::read` / `write`;
- the virtio activation gate (devices/virtio/net/event_handler.rs and
  friends), with the event-manager run semantics modelled from the spec.

Machine integers are embedded as `Nat` with explicit wrap-around (`% 2^64`,
`% 2^32`) where the Rust code performs wrapping `u64`/`u32` arithmetic.
Fallible paths that panic in Rust (out-of-bounds `Vec` indexing, failed
`read_exact_at`) are represented by explicit `panicked` result values.
-/

/-! ## Machine-integer helpers -/

/-- Truncation to 64 bits, the behaviour of Rust `u64` wrapping arithmetic. -/
def w64 (x : Nat) : Nat := x % 2 ^ 64

/-- Truncation to 32 bits, the behaviour of a Rust `as u32` cast. -/
def w32 (x : Nat) : Nat := x % 2 ^ 32

/-- Bitwise complement on 64 bits, the Rust `!x` on a `u64`. -/
def not64 (x : Nat) : Nat := 2 ^ 64 - 1 - w64 x

/-- Wrapping subtraction on 64 bits, the Rust `x - y` on `u64` values. -/
def sub64 (x y : Nat) : Nat := (w64 x + (2 ^ 64 - w64 y)) % 2 ^ 64

/-! ## Bus (src/vmm/src/devices/bus.rs)

The source keeps PIO devices as parallel vectors `pio_locations` /
`pio_devices` / `pio_devices_vtable`, and MMIO devices as a vector indexed
by slot.  For dispatch only the locations and the number of MMIO devices
matter, so the embedding keeps exactly those; a dispatched access is
reported as the chosen device index together with the offset handed to the
device. -/

/-- From src/vmm/src/arch/x86_64/mod.rs:
`MMIO_MEM_START = FIRST_ADDR_PAST_32BITS - MEM_32BIT_GAP_SIZE`
with `FIRST_ADDR_PAST_32BITS = 1 << 32` and `MEM_32BIT_GAP_SIZE = 768 << 20`. -/
def MMIO_MEM_START : Nat := 2 ^ 32 - 768 * 2 ^ 20

/-- Modelled from the spec: `MMIO_LEN` lives in `device_manager::mmio`,
which is not among the provided source files.  The spec fixes the stride:
"Virtio-MMIO devices at stride `0x1000`, starting at `MMIO_BASE`". -/
def MMIO_LEN : Nat := 0x1000

/-- Errors triggered during bus operations (`BusError` in bus.rs). -/
inductive BusError where
  | Overlap
deriving DecidableEq

/-- The observable state of `Bus`: the PIO `(base, len)` vector and the
number of inserted MMIO devices (MMIO devices are pushed sequentially and
looked up purely by slot index). -/
structure Bus where
  pio_locations : List (Nat × Nat)
  mmio_device_count : Nat
deriving DecidableEq

def Bus.empty : Bus := Bus.mk [] 0

/-- Outcome of a `Bus::read` / `Bus::write` call: dispatch to the device at
a given vector index with a given offset (the call then returns `true`),
a logged miss returning `false` with the buffer untouched, or a Rust panic
(out-of-bounds indexing into the MMIO device vector). -/
inductive BusAccessResult where
  | dispatched (index : Nat) (offset : Nat)
  | miss
  | panicked
deriving DecidableEq

/-- The PIO linear scan shared by `Bus::get_device`, `Bus::read` and
`Bus::write`: first entry with `base <= addr && addr <= base + len` wins
(note the inclusive upper bound in the source). -/
def pioLookup (addr : Nat) : List (Nat × Nat) → Nat → Option (Nat × Nat)
  | [], _ => none
  | (base, len) :: rest, i =>
    if base ≤ addr ∧ addr ≤ base + len then some (i, addr - base)
    else pioLookup addr rest (i + 1)

/-- `Bus::insert`: pushes the range / device unconditionally and always
returns `Ok(())`; the source contains no overlap check of any kind. -/
def Bus.insert (bus : Bus) (base len : Nat) : Except BusError Bus :=
  if base < MMIO_MEM_START then
    Except.ok (Bus.mk (bus.pio_locations ++ [(base, len)]) bus.mmio_device_count)
  else
    Except.ok (Bus.mk bus.pio_locations (bus.mmio_device_count + 1))

/-- `Bus::read`: PIO addresses scan `pio_locations`; a miss logs at error
level and returns `false`.  MMIO addresses compute the slot index and index
`mmio_devices_vtable` without any bounds check, which panics when the slot
has no device. -/
def Bus.read (bus : Bus) (addr : Nat) : BusAccessResult :=
  if addr < MMIO_MEM_START then
    match pioLookup addr bus.pio_locations 0 with
    | some (i, offset) => BusAccessResult.dispatched i offset
    | none => BusAccessResult.miss
  else
    let index := (addr - MMIO_MEM_START) / MMIO_LEN
    let offset := (addr - MMIO_MEM_START) - MMIO_LEN * index
    if index < bus.mmio_device_count then BusAccessResult.dispatched index offset
    else BusAccessResult.panicked

/-- `Bus::write`: same lookup logic as `Bus::read` (the source duplicates
the loop and the unchecked MMIO indexing). -/
def Bus.write (bus : Bus) (addr : Nat) : BusAccessResult :=
  if addr < MMIO_MEM_START then
    match pioLookup addr bus.pio_locations 0 with
    | some (i, offset) => BusAccessResult.dispatched i offset
    | none => BusAccessResult.miss
  else
    let index := (addr - MMIO_MEM_START) / MMIO_LEN
    let offset := (addr - MMIO_MEM_START) - MMIO_LEN * index
    if index < bus.mmio_device_count then BusAccessResult.dispatched index offset
    else BusAccessResult.panicked

/-! ## VFIO data model (src/vmm/src/vfio/mod.rs) -/

/-- The capabilities attached to a VFIO region (`VfioRegionCap`); sparse
mmap areas are `(offset, size)` pairs. -/
inductive VfioRegionCap where
  | SparseMmap (areas : List (Nat × Nat))
  | TypeCap (type_ : Nat) (subtype : Nat)
  | MsixMappable
  | Nvlink2Ssatgt (tgt : Nat)
  | Nvlink2Lnkspd (link_speed : Nat)
deriving DecidableEq

/-- `VfioRegionInfo`: flags, index, size, offset and capability list of one
device region. -/
structure VfioRegionInfo where
  flags : Nat
  index : Nat
  size : Nat
  offset : Nat
  caps : List VfioRegionCap
deriving DecidableEq

/-- `BarInfo`: one sized and GPA-allocated BAR. -/
structure BarInfo where
  idx : Nat
  gpa : Nat
  size : Nat
  is_64_bits : Bool
  is_prefetchable : Bool
  about_to_read_size : Bool
deriving DecidableEq

/-- `ExpansionRomInfo`: ROM GPA, size, and the low 12 "validation" bits
captured from the hardware register (`extra`). -/
structure ExpansionRomInfo where
  gpa : Nat
  size : Nat
  extra : Nat
  about_to_read_size : Bool
deriving DecidableEq

/-- `RegisterMask`: applied on config reads as `(R & mask) | value`. -/
structure RegisterMask where
  register : Nat
  mask : Nat
  value : Nat
deriving DecidableEq

/-- `RegisterMask` application, `result = (result & mask.mask) | mask.value`
in `read_config_register`. -/
def RegisterMask.apply (m : RegisterMask) (r : Nat) : Nat :=
  (r &&& m.mask) ||| m.value

/-- `MsixCap`: message control, table offset/BIR word, PBA offset/BIR word. -/
structure MsixCap where
  msg_ctl : Nat
  table_offset : Nat
  pba_offset : Nat
deriving DecidableEq

/-- `MsixCap::table_offset()`: `table_offset & 0xffff_fff8`. -/
def MsixCap.table_offset_masked (c : MsixCap) : Nat := c.table_offset &&& 0xfffffff8

/-- `MsixCap::pba_offset()`: `pba_offset & 0xffff_fff8`. -/
def MsixCap.pba_offset_masked (c : MsixCap) : Nat := c.pba_offset &&& 0xfffffff8

/-- `MsixCap::table_bir()`: `table_offset & 0x7`. -/
def MsixCap.table_bir (c : MsixCap) : Nat := c.table_offset &&& 0x7

/-- `MsixCap::pba_bir()`: `pba_offset & 0x7`. -/
def MsixCap.pba_bir (c : MsixCap) : Nat := c.pba_offset &&& 0x7

/-- `MsixCap::table_size()`: `(msg_ctl & 0x7ff) + 1`. -/
def MsixCap.table_size (c : MsixCap) : Nat := (c.msg_ctl &&& 0x7ff) + 1

/-- `MsixCap::table_range()`: 16 bytes per entry. -/
def MsixCap.table_range (c : MsixCap) : Nat × Nat :=
  (c.table_offset_masked, c.table_size * 16)

/-- `MsixCap::pba_range()`: `((table_size / 64) + 1) * 8` bytes. -/
def MsixCap.pba_range (c : MsixCap) : Nat × Nat :=
  (c.pba_offset_masked, (c.table_size / 64 + 1) * 8)

/-- Usage of a virtualized MSI-X hole (`BarHoleInfoUsage`). -/
inductive BarHoleInfoUsage where
  | Table
  | Pba
deriving DecidableEq

/-- `BarHoleInfo`: one page-aligned trapped range inside a BAR. -/
structure BarHoleInfo where
  gpa : Nat
  size : Nat
  offset_in_hole : Nat
  usage : BarHoleInfoUsage
deriving DecidableEq

/-! ## VFIO region access (vfio_device_region_read / _write)

Both functions index `region_infos` by `index` (a Rust `Vec` index, which
panics when out of bounds), bounds-check `offset + buf.len() <= size` with
wrapping `u64` addition, and then `read_exact_at` / `write_all_at` at file
offset `region.offset + offset`; any `Err` from the transfer panics.  The
`io_ok` parameter models whether the underlying full-length transfer
succeeds. -/

/-- Outcome of one region access: a completed transfer of `len` bytes at a
device-file offset, or a Rust panic. -/
inductive RegionAccess where
  | accessed (file_offset : Nat) (len : Nat)
  | panicked
deriving DecidableEq

/-- `vfio_device_region_read`. -/
def vfio_device_region_read (region_infos : List VfioRegionInfo) (index : Nat)
    (offset : Nat) (buf_len : Nat) (io_ok : Bool) : RegionAccess :=
  match region_infos.get? index with
  | none => RegionAccess.panicked
  | some region_info =>
    if (w64 offset + w64 buf_len) % 2 ^ 64 ≤ region_info.size then
      if io_ok then RegionAccess.accessed ((w64 region_info.offset + w64 offset) % 2 ^ 64) buf_len
      else RegionAccess.panicked
    else RegionAccess.panicked

/-- `vfio_device_region_write` (identical structure to the read path). -/
def vfio_device_region_write (region_infos : List VfioRegionInfo) (index : Nat)
    (offset : Nat) (buf_len : Nat) (io_ok : Bool) : RegionAccess :=
  match region_infos.get? index with
  | none => RegionAccess.panicked
  | some region_info =>
    if (w64 offset + w64 buf_len) % 2 ^ 64 ≤ region_info.size then
      if io_ok then RegionAccess.accessed ((w64 region_info.offset + w64 offset) % 2 ^ 64) buf_len
      else RegionAccess.panicked
    else RegionAccess.panicked

/-! ## VFIO config-space emulation (PciDevice for VfioDeviceBundle) -/

/-- The mutable state that `write_config_register` / `read_config_register`
consult: BAR entries, the optional expansion ROM entry, and the recorded
register masks. -/
structure VfioConfigState where
  bar_infos : List BarInfo
  expansion_rom_info : Option ExpansionRomInfo
  masks : Option (List RegisterMask)
deriving DecidableEq

/-- Little-endian byte-list decoding, the `u32::from_le_bytes` of the
4-byte sentinel test. -/
def from_le_bytes : List Nat → Nat
  | [] => 0
  | b :: rest => b % 256 + 256 * from_le_bytes rest

/-- The sentinel test in `write_config_register`: `data.len() == 4` and the
little-endian value is `0xFFFF_FFFF`. -/
def looks_like_request_to_read (data : List Nat) : Bool :=
  data.length == 4 && from_le_bytes data == 0xffffffff

/-- `VfioDeviceBundle::write_config_register` (the part acting on the
emulated state; writes forwarded to the VFIO config region leave this state
unchanged).  A 0xFFFFFFFF write to a BAR low register, to the high register
of a 64-bit BAR, or to the ROM register sets `about_to_read_size` on the
matching entry. -/
def write_config_register (st : VfioConfigState) (reg_idx : Nat) (data : List Nat) :
    VfioConfigState :=
  if 4 ≤ reg_idx ∧ reg_idx < 10 then
    let bar_idx := reg_idx - 4
    let req := looks_like_request_to_read data
    VfioConfigState.mk
      (st.bar_infos.map (fun bar_info =>
        if bar_idx = bar_info.idx then
          if req then
            BarInfo.mk bar_info.idx bar_info.gpa bar_info.size bar_info.is_64_bits
              bar_info.is_prefetchable true
          else bar_info
        else if bar_idx = bar_info.idx + 1 ∧ bar_info.is_64_bits then
          if req then
            BarInfo.mk bar_info.idx bar_info.gpa bar_info.size bar_info.is_64_bits
              bar_info.is_prefetchable true
          else bar_info
        else bar_info))
      st.expansion_rom_info st.masks
  else if reg_idx = 12 then
    match st.expansion_rom_info with
    | some rom_info =>
      if looks_like_request_to_read data then
        VfioConfigState.mk st.bar_infos
          (some (ExpansionRomInfo.mk rom_info.gpa rom_info.size rom_info.extra true))
          st.masks
      else st
    | none => st
  else st

/-- `VfioDeviceBundle::read_config_register`.  `cfg reg_idx` is the 32-bit
value `vfio_device_region_read` returns from the VFIO config region at
offset `reg_idx * 4` (the forwarded path).  Note that the source never
clears `about_to_read_size`, that the sized BAR read returns
`(!(size - 1)) & 0xFFFF_FFFF` without the type bits, and that the ROM read
returns `((gpa << 11) as u32) | extra`. -/
def read_config_register (st : VfioConfigState) (cfg : Nat → Nat) (reg_idx : Nat) : Nat :=
  if 4 ≤ reg_idx ∧ reg_idx < 10 then
    let bar_idx := reg_idx - 4
    st.bar_infos.foldl
      (fun result bar_info =>
        if bar_idx = bar_info.idx then
          if bar_info.about_to_read_size then
            w32 (not64 (sub64 bar_info.size 1))
          else
            w32 bar_info.gpa ||| (if bar_info.is_64_bits then 4 else 0) |||
              (if bar_info.is_prefetchable then 8 else 0)
        else if bar_info.is_64_bits ∧ bar_idx = bar_info.idx + 1 then
          if bar_info.about_to_read_size then
            not64 (sub64 bar_info.size 1) / 2 ^ 32
          else
            w64 bar_info.gpa / 2 ^ 32
        else result)
      0
  else if reg_idx = 12 then
    match st.expansion_rom_info with
    | some rom_info =>
      if rom_info.about_to_read_size then rom_info.size
      else w32 (rom_info.gpa * 2 ^ 11) ||| rom_info.extra
    | none => 0
  else
    match st.masks with
    | some masks =>
      match masks.find? (fun mask => mask.register == reg_idx) with
      | some mask => mask.apply (w32 (cfg reg_idx))
      | none => w32 (cfg reg_idx)
    | none => w32 (cfg reg_idx)

/-! ## Extended-capability walk (vfio_device_get_pci_capabilities)

When the device has both a PCI Express and a Power Management capability,
the source walks the extended chain at 0x100.  `cfg off` is the 32-bit
dword read from the config region at byte offset `off`; for each of the
ARI, Resizeable BAR and SR-IOV capabilities the walk records a mask
`(0xFFFF_0000, 0)` on the register holding the capability header.  The
source loops `while next_cap_offset != 0`; the embedding bounds it with
fuel. -/

/-- PCI Express extended capability ID 0x0E
(AlternativeRoutingIdentificationInterpretation). -/
def PCIE_EXT_CAP_ID_ARI : Nat := 0x0e

/-- PCI Express extended capability ID 0x10 (SingleRootIoVirtualization). -/
def PCIE_EXT_CAP_ID_SRIOV : Nat := 0x10

/-- PCI Express extended capability ID 0x15 (ResizeableBar). -/
def PCIE_EXT_CAP_ID_RESIZEABLE_BAR : Nat := 0x15

/-- The extended-capability walk of `vfio_device_get_pci_capabilities`:
`cap_id = dword & 0xffff`, `next = dword >> 20`, and a
`RegisterMask { register: offset / 4, mask: 0xffff_0000, value: 0 }` is
pushed for each of the three hidden capabilities. -/
def vfio_extended_cap_masks (cfg : Nat → Nat) : Nat → Nat → List RegisterMask
  | 0, _ => []
  | fuel + 1, next_cap_offset =>
    if next_cap_offset = 0 then []
    else if w32 (cfg next_cap_offset) % 2 ^ 16 = PCIE_EXT_CAP_ID_ARI ∨
        w32 (cfg next_cap_offset) % 2 ^ 16 = PCIE_EXT_CAP_ID_RESIZEABLE_BAR ∨
        w32 (cfg next_cap_offset) % 2 ^ 16 = PCIE_EXT_CAP_ID_SRIOV then
      RegisterMask.mk (next_cap_offset / 4) 0xffff0000 0
        :: vfio_extended_cap_masks cfg fuel (w32 (cfg next_cap_offset) / 2 ^ 20)
    else vfio_extended_cap_masks cfg fuel (w32 (cfg next_cap_offset) / 2 ^ 20)

/-! ## MSI-X hole computation (mmap_bars) -/

/-- `align_page_size_down` in `mmap_bars`: `v & !(4096 - 1)` on `u64`. -/
def align_page_size_down (v : Nat) : Nat := v &&& not64 4095

/-- `align_page_size_up` in `mmap_bars`: `align_page_size_down (v + 4096)`. -/
def align_page_size_up (v : Nat) : Nat := align_page_size_down (w64 (v + 4096))

/-- The `BarHoleInfo` entries one iteration of the `mmap_bars` loop pushes
for a single BAR.  Faithful to the source: the Table hole is created when
`region_info.index == msix_cap.pba_bir()`, the Pba hole when
`region_info.index == msix_cap.table_bir()`, and the Pba hole's
`offset_in_hole` is `offset - msix_table_offset` (the table's aligned
offset, or 0 when no table hole was created for this BAR). -/
def bar_msix_holes (bar_info : BarInfo) (region_info : VfioRegionInfo)
    (msix_cap : Option MsixCap) : List BarHoleInfo :=
  match msix_cap with
  | none => []
  | some msix_cap =>
    let contain_msix_table := region_info.index = msix_cap.pba_bir
    let msix_table_offset :=
      if contain_msix_table then align_page_size_down msix_cap.table_range.1 else 0
    let table_holes :=
      if contain_msix_table then
        let offset := msix_cap.table_range.1
        let size := msix_cap.table_range.2
        let msix_table_size := align_page_size_up size
        [BarHoleInfo.mk (w64 (bar_info.gpa + msix_table_offset)) msix_table_size
          (sub64 offset msix_table_offset) BarHoleInfoUsage.Table]
      else []
    let contain_msix_pba := region_info.index = msix_cap.table_bir
    let pba_holes :=
      if contain_msix_pba then
        let offset := msix_cap.pba_range.1
        let size := msix_cap.pba_range.2
        let msix_pba_offset := align_page_size_down offset
        let msix_pba_size := align_page_size_up size
        [BarHoleInfo.mk (w64 (bar_info.gpa + msix_pba_offset)) msix_pba_size
          (sub64 offset msix_table_offset) BarHoleInfoUsage.Pba]
      else []
    table_holes ++ pba_holes

/-- Fallback for the `region_infos[bar_info.idx]` lookup (the source would
panic on an out-of-range index; the index field of the fallback can match
no BIR, which is at most 7). -/
def fallback_region_info : VfioRegionInfo := VfioRegionInfo.mk 0 0xffffffff 0 0 []

/-- The list of `BarHoleInfo` entries `mmap_bars` accumulates over all
BARs (`region_infos` is indexed by `bar_info.idx`). -/
def mmap_bars_holes (bar_infos : List BarInfo) (region_infos : List VfioRegionInfo)
    (msix_cap : Option MsixCap) : List BarHoleInfo :=
  bar_infos.foldl
    (fun infos bar_info =>
      infos ++ bar_msix_holes bar_info (region_infos.getD bar_info.idx fallback_region_info)
          msix_cap)
    []

/-! ## Synchronous block back-end (sync_io.rs)

`SyncFileEngine::read` / `write` loop over `read_at` / `write_at` until
`bytes_done` reaches the requested `count`, retrying on `Interrupted`,
failing with `UnexpectedEof` / `WriteZero` on a zero-length transfer and
propagating any other error.  The file is modelled by a trace of syscall
outcomes, one per call; the loop additionally records, as ghost output, the
`(file_offset, n)` of every successful partial transfer. -/

/-- Error kinds relevant to the sync engine loops. -/
inductive IoErrorKind where
  | UnexpectedEof
  | WriteZero
  | Interrupted
  | Other
deriving DecidableEq

/-- `SyncIoError` from sync_io.rs. -/
inductive SyncIoError where
  | Flush
  | SyncAll
  | Transfer
  | PreadPwrite (kind : IoErrorKind)
deriving DecidableEq

/-- Outcome of one `read_at` / `write_at` syscall. -/
inductive PreadRes where
  | ok (n : Nat)
  | interrupted
  | fail
deriving DecidableEq

/-- The `while bytes_done < buf.len()` loop shared by `SyncFileEngine::read`
and `SyncFileEngine::write` (the source duplicates it verbatim; the two
copies differ only in the error produced by a zero-length transfer, here
`zero_error`): `Ok(0)` errors with `zero_error`, `Ok(n)` advances
`bytes_done` (the syscall was issued at file offset `offset + bytes_done`),
`Interrupted` retries, and any other error is returned.  Returns `none`
when the outcome trace is exhausted before the loop finishes, and otherwise
the source's result (`Ok(count)` or the error) paired with the ghost list
of successful `(file_offset, n)` transfers. -/
def sync_transfer_loop (zero_error : SyncIoError) (offset count : Nat) :
    List PreadRes → Nat → Option (Except SyncIoError (Nat × List (Nat × Nat)))
  | [], bytes_done =>
    if bytes_done < count then none else some (Except.ok (count, []))
  | PreadRes.ok n :: rest, bytes_done =>
    if bytes_done < count then
      if n = 0 then some (Except.error zero_error)
      else
        match sync_transfer_loop zero_error offset count rest (bytes_done + n) with
        | none => none
        | some (Except.error e) => some (Except.error e)
        | some (Except.ok (r, segs)) =>
          some (Except.ok (r, (offset + bytes_done, n) :: segs))
    else some (Except.ok (count, []))
  | PreadRes.interrupted :: rest, bytes_done =>
    if bytes_done < count then sync_transfer_loop zero_error offset count rest bytes_done
    else some (Except.ok (count, []))
  | PreadRes.fail :: _, bytes_done =>
    if bytes_done < count then some (Except.error (SyncIoError.PreadPwrite IoErrorKind.Other))
    else some (Except.ok (count, []))

/-- The loop of `SyncFileEngine::read`: a zero-length `read_at` before
completion errors with `UnexpectedEof`. -/
def pread_loop : Nat → Nat → List PreadRes → Nat →
    Option (Except SyncIoError (Nat × List (Nat × Nat))) :=
  sync_transfer_loop (SyncIoError.PreadPwrite IoErrorKind.UnexpectedEof)

/-- The loop of `SyncFileEngine::write`: a zero-length `write_at` before
completion errors with `WriteZero`. -/
def pwrite_loop : Nat → Nat → List PreadRes → Nat →
    Option (Except SyncIoError (Nat × List (Nat × Nat))) :=
  sync_transfer_loop (SyncIoError.PreadPwrite IoErrorKind.WriteZero)

/-- Well-formedness of an outcome trace: a successful syscall never
transfers more than the `count - bytes_done` bytes that were requested
(the contract of `read_at` / `write_at` on a real file). -/
def trace_valid : List PreadRes → Nat → Nat → Bool
  | [], _, _ => true
  | PreadRes.ok n :: rest, count, bytes_done =>
    Nat.ble n (count - bytes_done) && trace_valid rest count (bytes_done + n)
  | PreadRes.interrupted :: rest, count, bytes_done => trace_valid rest count bytes_done
  | PreadRes.fail :: rest, count, bytes_done => trace_valid rest count bytes_done

/-- The transfers `segs` exactly tile the byte range
`[off, off + count)` in order. -/
def covers : Nat → Nat → List (Nat × Nat) → Bool
  | _, count, [] => count == 0
  | off, count, (o, n) :: rest =>
    (o == off) && Nat.ble n count && covers (off + n) (count - n) rest

/-! ## Virtio activation gate

From the source under src/ (event_handler.rs of net, block, balloon): a
device's queue-notify eventfds are handed to the event manager only inside
`RegisterEvents::register`, whose actions call the device's
`process_<queue>_event`.  The remaining behaviour is modelled from the
spec: "only on DRIVER_OK does the host activate queues (register event
sources)"; "a write by the guest to the queue-notify MMIO offset increments
the notify eventfd, which the event loop turns into a call to the device's
`process_<queue>_event`"; "TX event: drain available descriptors"; "the
host ... writes the `(id, len)` tuple into `used.ring` and advances
`used.idx`". -/

/-- Abstract state of one virtio queue device (net TX, block, balloon
inflate all share this shape). -/
structure VirtioQueueDevice where
  is_activated : Bool
  registered : Bool
  notify_pending : Nat
  avail_chains : Nat
  used_idx : Nat
deriving DecidableEq

/-- The guest writes the queue-notify eventfd (its counter increments). -/
def write_queue_notify (d : VirtioQueueDevice) : VirtioQueueDevice :=
  VirtioQueueDevice.mk d.is_activated d.registered (d.notify_pending + 1) d.avail_chains
    d.used_idx

/-- Modelled from the spec: `process_<queue>_event` consumes the eventfd
and drains the available descriptor chains, advancing `used.idx` by one per
completed chain. -/
def process_queue_notify_event (d : VirtioQueueDevice) : VirtioQueueDevice :=
  VirtioQueueDevice.mk d.is_activated d.registered 0 0 (d.used_idx + d.avail_chains)

/-- From event_handler.rs: `RegisterEvents::register` adds the queue
eventfd (with its `process_<queue>_event` action) to the event manager. -/
def register_events (d : VirtioQueueDevice) : VirtioQueueDevice :=
  VirtioQueueDevice.mk d.is_activated true d.notify_pending d.avail_chains d.used_idx

/-- Modelled from the spec: activation (DRIVER_OK) marks the device active
and registers its event sources. -/
def activate (d : VirtioQueueDevice) : VirtioQueueDevice :=
  register_events
    (VirtioQueueDevice.mk true d.registered d.notify_pending d.avail_chains d.used_idx)

/-- Modelled from the spec: one run of the event loop surfaces an event for
a pending eventfd only if that fd was registered, and then invokes the
registered action; otherwise it times out with zero events. Returns the new
state and the number of events surfaced. -/
def run_event_loop (d : VirtioQueueDevice) : VirtioQueueDevice × Nat :=
  if d.registered && decide (0 < d.notify_pending) then (process_queue_notify_event d, 1)
  else (d, 0)

/-! ## Theorems -/

/-- Claim C1.  The claim states that `Bus::insert` of a range sharing a
byte with an already-inserted range returns `Err(BusError::Overlap)` and
that any two accepted insertions have disjoint ranges.  The code refutes
it: `insert` performs no overlap check and always returns `Ok(())`, so the
overlapping insertion of `[0x0F, 0x1F)` after `[0x10, 0x20)` is accepted
and both ranges (which share the bytes `0x10 ..= 0x1E`) end up on the bus.
(The `bus_insert` test in bus.rs expects `Err(Overlap)` here.) -/
theorem bus_insert_accepts_overlap :
    (Bus.empty.insert 0x10 0x10).bind (fun b => b.insert 0x0f 0x10)
        = Except.ok (Bus.mk [(0x10, 0x10), (0x0f, 0x10)] 0)
      ∧ max 0x10 0x0f < min (0x10 + 0x10) (0x0f + 0x10) :=
  ⟨rfl, by decide⟩

/-- Claim C2.  The claim states that an access to an unclaimed address
returns `false` without panicking, including MMIO addresses whose slot has
no device.  The code refutes it for the MMIO half: `read`/`write` index
`mmio_devices_vtable[(addr - MMIO_MEM_START) / MMIO_LEN]` without a bounds
check, so an access to an unassigned MMIO slot (here `MMIO_MEM_START` with
no MMIO device inserted) panics instead of returning `false`. -/
theorem bus_unassigned_mmio_access_panics :
    Bus.empty.read MMIO_MEM_START = BusAccessResult.panicked
      ∧ Bus.empty.write MMIO_MEM_START = BusAccessResult.panicked
      ∧ (Bus.mk [(0x10, 0x10)] 0).read 0x06 = BusAccessResult.miss :=
  ⟨rfl, rfl, rfl⟩

/-- Claim C6.  The claim states that a PIO device at `(base, len)` owns
exactly `[base, base + len)`, so `base + len` is not dispatched to it.  The
code refutes it: the lookup condition is `base <= addr && addr <= base +
len` (inclusive), so the one-past-the-end address `0x20` of a device at
`(0x10, 0x10)` is dispatched with offset `len`.  (The `bus_read_write` test
in bus.rs asserts `!bus.read(0x20, ...)` for this layout.) -/
theorem bus_dispatch_includes_one_past_end :
    (Bus.mk [(0x10, 0x10)] 0).read 0x20 = BusAccessResult.dispatched 0 0x10
      ∧ (Bus.mk [(0x10, 0x10)] 0).write 0x20 = BusAccessResult.dispatched 0 0x10
      ∧ 0x20 = 0x10 + 0x10 :=
  ⟨rfl, rfl, rfl⟩

/-- The C3 example state: a 64-bit non-prefetchable BAR of size 0x4000 at
GPA 0xC000_0000_0000, before any sentinel write. -/
def c3_state : VfioConfigState :=
  VfioConfigState.mk [BarInfo.mk 0 0xc00000000000 0x4000 true false false] none none

/-- Claim C3.  The claim states that after a `0xFFFFFFFF` write the next
read of the low BAR register returns `~(size - 1)` truncated to 32 bits
with the `is_64_bits << 2` and `is_prefetchable << 3` bits also set
(`0xFFFFC004` for this BAR), and that only the next read is affected.  The
code refutes both parts: the sized read returns the bare mask `0xFFFFC000`
(no type bits are ORed in on the `about_to_read_size` path), and nothing
ever clears `about_to_read_size`, so the flag stays set in the state after
the write (`read_config_register` takes no state update) and every later
read also returns the size mask.  The high-register read (`0xFFFFFFFF`)
matches the claim. -/
theorem bar_size_read_drops_type_bits :
    read_config_register (write_config_register c3_state 4 [0xff, 0xff, 0xff, 0xff])
        (fun _ => 0) 4 = 0xffffc000
      ∧ (0xffffc000 : Nat) ≠ 0xffffc004
      ∧ (write_config_register c3_state 4 [0xff, 0xff, 0xff, 0xff]).bar_infos
          = [BarInfo.mk 0 0xc00000000000 0x4000 true false true]
      ∧ read_config_register (write_config_register c3_state 4 [0xff, 0xff, 0xff, 0xff])
          (fun _ => 0) 5 = 0xffffffff
      ∧ read_config_register c3_state (fun _ => 0) 4 = 0x4 :=
  ⟨rfl, by decide, rfl, rfl, rfl⟩

/-- Claim C7.  The claim states that a non-sentinel read of config register
12 returns the allocated ROM GPA in the high bits with the low 12 bits
equal to the captured validation bits.  The code refutes it: the read
computes `((gpa << 11) as u32) | extra`, and the shift pushes the GPA out
of the 32-bit result — for ROM GPA `0xC000_0000` and validation bits `0x5`
the guest reads `0x5` instead of `0xC000_0005`. -/
theorem rom_read_loses_gpa :
    read_config_register
        (VfioConfigState.mk [] (some (ExpansionRomInfo.mk 0xc0000000 0x4000 0x5 false)) none)
        (fun _ => 0) 12 = 0x5
      ∧ (0x5 : Nat) ≠ 0xc0000005 :=
  ⟨rfl, by decide⟩

/-- The C4 example capability: `table_size = 8`, table at offset 0x1000 of
BAR 2 (`table_bir = 2`), PBA at offset 0x2000 of BAR 3 (`pba_bir = 3`). -/
def c4_cap : MsixCap := MsixCap.mk 7 0x1002 0x2003

/-- The C4 example BARs (region indices 2 and 3). -/
def c4_bars : List BarInfo :=
  [BarInfo.mk 2 0xa0000000 0x10000 false false false,
   BarInfo.mk 3 0xb0000000 0x10000 false false false]

/-- The C4 example region list (index `i` at file offset `i * 0x100000`). -/
def c4_regions : List VfioRegionInfo :=
  [VfioRegionInfo.mk 0 0 0x10000 0 [], VfioRegionInfo.mk 0 1 0x10000 0x100000 [],
   VfioRegionInfo.mk 0 2 0x10000 0x200000 [], VfioRegionInfo.mk 0 3 0x10000 0x300000 []]

/-- Claim C4.  The claim states that `mmap_bars` creates the Table hole for
the BAR whose region index equals `table_bir` and the Pba hole for the BAR
whose region index equals `pba_bir`, each with `offset_in_hole` relative to
its own page-aligned start.  The code refutes it: with `table_bir = 2` and
`pba_bir = 3` the Table hole lands on BAR 3 (the code tests
`region_info.index == msix_cap.pba_bir()`) and the Pba hole on BAR 2 (it
tests `== table_bir()`); moreover the Pba hole's `offset_in_hole` is
computed against the *table's* aligned offset (here 0, since BAR 2 got no
table hole), yielding `0x2000` instead of `0`. -/
theorem msix_holes_swap_table_and_pba_bir :
    MsixCap.table_bir c4_cap = 2
      ∧ MsixCap.pba_bir c4_cap = 3
      ∧ mmap_bars_holes c4_bars c4_regions (some c4_cap)
          = [BarHoleInfo.mk 0xa0002000 4096 0x2000 BarHoleInfoUsage.Pba,
             BarHoleInfo.mk 0xb0001000 4096 0 BarHoleInfoUsage.Table] :=
  ⟨rfl, rfl, rfl⟩

/-- The C10 example region list: one region of size 0x1000 at file offset
0x10000. -/
def c10_regions : List VfioRegionInfo := [VfioRegionInfo.mk 0 0 0x1000 0x10000 []]

/-- Claim C10, counterexample.  The bounds check `offset + buf_size <=
region_info.size` is wrapping `u64` arithmetic, so the out-of-bounds
request `offset = 2^64 - 1`, `buf.len() = 1` wraps the sum to `0`, passes
the check, and the file is accessed at wrapped offset `0xFFFF` — before the
region's start `0x10000` — without any panic.  This refutes the claim that
the device file is accessed only when `offset + buf.len() <= size` and that
every out-of-bounds request panics. -/
theorem region_bounds_check_wraps :
    vfio_device_region_read c10_regions 0 (2 ^ 64 - 1) 1 true = RegionAccess.accessed 0xffff 1
      ∧ vfio_device_region_write c10_regions 0 (2 ^ 64 - 1) 1 true
          = RegionAccess.accessed 0xffff 1
      ∧ 0x1000 < 2 ^ 64 - 1 + 1
      ∧ 0xffff < 0x10000 :=
  ⟨rfl, rfl, by decide, by decide⟩

/-- Every mask the extended-capability walk records is
`(mask, value) = (0xFFFF_0000, 0)`. -/
theorem vfio_extended_cap_masks_shape (cfg : Nat → Nat) :
    ∀ (fuel start : Nat) (m : RegisterMask),
      m ∈ vfio_extended_cap_masks cfg fuel start → m.mask = 0xffff0000 ∧ m.value = 0 := by
  intro fuel
  induction fuel with
  | zero =>
    intro start m h
    simp [vfio_extended_cap_masks] at h
  | succ n ih =>
    intro start m h
    simp only [vfio_extended_cap_masks] at h
    split at h
    · simp at h
    · split at h
      · rcases List.mem_cons.mp h with h1 | h1
        · subst h1
          exact ⟨rfl, rfl⟩
        · exact ih _ m h1
      · exact ih _ m h

/-- Claim C9.  Every `RegisterMask` recorded during the extended-capability
walk carries `(mask, value) = (0xFFFF_0000, 0)`, and applying such a mask
on a config-space read, `f(R) = (R & m) | v`, is idempotent:
`f(f(R)) = f(R)` for every 32-bit register value `R`. -/
theorem register_mask_apply_idempotent :
    ∀ (cfg : Nat → Nat) (fuel start : Nat) (m : RegisterMask),
      m ∈ vfio_extended_cap_masks cfg fuel start →
      ∀ r : Nat, m.apply (m.apply r) = m.apply r := by
  intro cfg fuel start m hm r
  obtain ⟨hmask, hval⟩ := vfio_extended_cap_masks_shape cfg fuel start m hm
  apply Nat.eq_of_testBit_eq
  intro i
  simp [RegisterMask.apply, hmask, hval, Nat.testBit_lor, Nat.testBit_land,
    Bool.and_assoc, Bool.and_self]

/-- Witness for C9: a one-step walk over a config space whose dword at
0x100 holds the ARI capability id records the mask on register 0x40, and
applying it twice to `0x12345678` equals applying it once. -/
theorem register_mask_apply_idempotent_witness :
    RegisterMask.apply (RegisterMask.mk 0x40 0xffff0000 0)
        (RegisterMask.apply (RegisterMask.mk 0x40 0xffff0000 0) 0x12345678)
      = RegisterMask.apply (RegisterMask.mk 0x40 0xffff0000 0) 0x12345678 :=
  register_mask_apply_idempotent (fun _ => 0x0e) 1 0x100
    (RegisterMask.mk 0x40 0xffff0000 0) (by decide) 0x12345678

/-- Claim C5.  With the queue-notify eventfd not yet registered with the
event manager (registration happens only inside `RegisterEvents::register`,
invoked at activation), a guest notify written before DRIVER_OK surfaces
zero events from an event-loop run and leaves `used.idx` unchanged; after
activation the pending notification is processed and `used.idx` advances
by the one available chain. -/
theorem queue_notify_gated_until_activation :
    ∀ d : VirtioQueueDevice,
      d.registered = false →
      d.avail_chains = 1 →
      (run_event_loop (write_queue_notify d) = (write_queue_notify d, 0)
        ∧ (run_event_loop (write_queue_notify d)).1.used_idx = d.used_idx)
      ∧ (run_event_loop (activate (write_queue_notify d))).2 = 1
      ∧ (run_event_loop (activate (write_queue_notify d))).1.used_idx = d.used_idx + 1 := by
  intro d h1 h2
  simp [run_event_loop, write_queue_notify, activate, register_events,
    process_queue_notify_event, h1, h2]

/-- Witness for C5: the inactive device with one available chain and
`used.idx = 7`. -/
theorem queue_notify_gated_until_activation_witness :
    (run_event_loop (write_queue_notify (VirtioQueueDevice.mk false false 0 1 7))
        = (write_queue_notify (VirtioQueueDevice.mk false false 0 1 7), 0)
      ∧ (run_event_loop (write_queue_notify (VirtioQueueDevice.mk false false 0 1 7))).1.used_idx
          = 7)
    ∧ (run_event_loop (activate (write_queue_notify (VirtioQueueDevice.mk false false 0 1 7)))).2
        = 1
    ∧ (run_event_loop
          (activate (write_queue_notify (VirtioQueueDevice.mk false false 0 1 7)))).1.used_idx
        = 7 + 1 :=
  queue_notify_gated_until_activation (VirtioQueueDevice.mk false false 0 1 7) rfl rfl

/-- Unfolding of `vfio_device_region_read` when the region index is in
range. -/
theorem vfio_device_region_read_eq (region_infos : List VfioRegionInfo) (index : Nat)
    (region_info : VfioRegionInfo) (offset buf_len : Nat) (io_ok : Bool)
    (hget : region_infos.get? index = some region_info) :
    vfio_device_region_read region_infos index offset buf_len io_ok
      = if (w64 offset + w64 buf_len) % 2 ^ 64 ≤ region_info.size then
          if io_ok then
            RegionAccess.accessed ((w64 region_info.offset + w64 offset) % 2 ^ 64) buf_len
          else RegionAccess.panicked
        else RegionAccess.panicked := by
  simp only [vfio_device_region_read, hget]

/-- Unfolding of `vfio_device_region_write` when the region index is in
range. -/
theorem vfio_device_region_write_eq (region_infos : List VfioRegionInfo) (index : Nat)
    (region_info : VfioRegionInfo) (offset buf_len : Nat) (io_ok : Bool)
    (hget : region_infos.get? index = some region_info) :
    vfio_device_region_write region_infos index offset buf_len io_ok
      = if (w64 offset + w64 buf_len) % 2 ^ 64 ≤ region_info.size then
          if io_ok then
            RegionAccess.accessed ((w64 region_info.offset + w64 offset) % 2 ^ 64) buf_len
          else RegionAccess.panicked
        else RegionAccess.panicked := by
  simp only [vfio_device_region_write, hget]

/-- Claim C10, amended.  Provided the `u64` sums do not wrap
(`offset + buf.len() < 2^64`), `vfio_device_region_read` and
`vfio_device_region_write` access the device file exactly when
`offset + buf.len() <= region.size` and the full transfer succeeds, and
then exactly at file offset `(region.offset + offset) mod 2^64` for
`buf.len()` bytes; every out-of-bounds request and every short or failed
transfer panics instead of accessing or skipping bytes. -/
theorem region_access_within_bounds :
    ∀ (region_infos : List VfioRegionInfo) (index : Nat) (region_info : VfioRegionInfo)
      (offset buf_len : Nat) (io_ok : Bool),
      region_infos.get? index = some region_info →
      region_info.offset < 2 ^ 64 →
      offset + buf_len < 2 ^ 64 →
      (offset + buf_len ≤ region_info.size ∧ io_ok = true →
        vfio_device_region_read region_infos index offset buf_len io_ok
            = RegionAccess.accessed ((region_info.offset + offset) % 2 ^ 64) buf_len
          ∧ vfio_device_region_write region_infos index offset buf_len io_ok
              = RegionAccess.accessed ((region_info.offset + offset) % 2 ^ 64) buf_len)
      ∧ (¬(offset + buf_len ≤ region_info.size ∧ io_ok = true) →
        vfio_device_region_read region_infos index offset buf_len io_ok
            = RegionAccess.panicked
          ∧ vfio_device_region_write region_infos index offset buf_len io_ok
              = RegionAccess.panicked) := by
  intro region_infos index region_info offset buf_len io_ok hget hro hob
  have h1 : offset < 2 ^ 64 := Nat.lt_of_le_of_lt (Nat.le_add_right _ _) hob
  have h2 : buf_len < 2 ^ 64 := Nat.lt_of_le_of_lt (Nat.le_add_left _ _) hob
  rw [vfio_device_region_read_eq region_infos index region_info offset buf_len io_ok hget,
    vfio_device_region_write_eq region_infos index region_info offset buf_len io_ok hget]
  simp only [w64, Nat.mod_eq_of_lt h1, Nat.mod_eq_of_lt h2, Nat.mod_eq_of_lt hob,
    Nat.mod_eq_of_lt hro]
  constructor
  · rintro ⟨hle, rfl⟩
    simp [hle]
  · intro hn
    by_cases hle : offset + buf_len ≤ region_info.size
    · have hko : io_ok = false := by
        cases io_ok
        · rfl
        · exact absurd ⟨hle, rfl⟩ hn
      subst hko
      simp [hle]
    · simp [hle]

/-- Witness for the amended C10: an in-bounds 8-byte access at offset 4 of
the example region reaches the device file at `0x10000 + 4`. -/
theorem region_access_within_bounds_witness :
    vfio_device_region_read c10_regions 0 4 8 true
        = RegionAccess.accessed ((0x10000 + 4) % 2 ^ 64) 8
      ∧ vfio_device_region_write c10_regions 0 4 8 true
          = RegionAccess.accessed ((0x10000 + 4) % 2 ^ 64) 8 :=
  (region_access_within_bounds c10_regions 0 (VfioRegionInfo.mk 0 0 0x1000 0x10000 []) 4 8 true
    rfl (by decide) (by decide)).1 ⟨by decide, rfl⟩

/-- When the loop has already transferred everything (`count <= bytes_done`)
the returned result is `Ok(count)` with no further transfers, which covers
the remaining zero bytes. -/
theorem sync_loop_completed_aux (offset count bytes_done r : Nat) (segs : List (Nat × Nat))
    (hge : ¬ bytes_done < count)
    (hloop : (some (Except.ok (count, []))
        : Option (Except SyncIoError (Nat × List (Nat × Nat))))
      = some (Except.ok (r, segs))) :
    r = count ∧ covers (offset + bytes_done) (count - bytes_done) segs = true := by
  simp only [Option.some.injEq, Except.ok.injEq, Prod.mk.injEq] at hloop
  obtain ⟨h1, h2⟩ := hloop
  subst h1
  subst h2
  refine ⟨rfl, ?_⟩
  simp [covers, Nat.sub_eq_zero_of_le (Nat.le_of_not_lt hge)]

/-- If the transfer loop returns `Ok` on a well-formed outcome trace, the
result is the requested `count` and the successful transfers tile exactly
the remaining byte range. -/
theorem sync_transfer_loop_ok_covers (zero_error : SyncIoError) (offset count : Nat) :
    ∀ (trace : List PreadRes) (bytes_done r : Nat) (segs : List (Nat × Nat)),
      trace_valid trace count bytes_done = true →
      bytes_done ≤ count →
      sync_transfer_loop zero_error offset count trace bytes_done
        = some (Except.ok (r, segs)) →
      r = count ∧ covers (offset + bytes_done) (count - bytes_done) segs = true := by
  intro trace
  induction trace with
  | nil =>
    intro bytes_done r segs htv hb hloop
    simp only [sync_transfer_loop] at hloop
    split at hloop
    · exact absurd hloop (by simp)
    · exact sync_loop_completed_aux offset count bytes_done r segs (by assumption) hloop
  | cons head rest ih =>
    intro bytes_done r segs htv hb hloop
    cases head with
    | ok n =>
      simp only [trace_valid, Bool.and_eq_true] at htv
      obtain ⟨hble, htvr⟩ := htv
      have hn : n ≤ count - bytes_done := Nat.le_of_ble_eq_true hble
      simp only [sync_transfer_loop] at hloop
      split at hloop
      · rename_i hlt
        split at hloop
        · exact absurd hloop (by simp)
        · split at hloop
          · exact absurd hloop (by simp)
          · exact absurd hloop (by simp)
          · rename_i r0 segs0 heq
            have hb2 : bytes_done + n ≤ count := by omega
            obtain ⟨hr0, hcov⟩ := ih (bytes_done + n) r0 segs0 htvr hb2 heq
            simp only [Option.some.injEq, Except.ok.injEq, Prod.mk.injEq] at hloop
            obtain ⟨h1, h2⟩ := hloop
            subst h1
            subst h2
            refine ⟨hr0, ?_⟩
            simp [covers, Nat.add_assoc, Nat.sub_sub, hcov, hble]
      · exact sync_loop_completed_aux offset count bytes_done r segs (by assumption) hloop
    | interrupted =>
      simp only [trace_valid] at htv
      simp only [sync_transfer_loop] at hloop
      split at hloop
      · exact ih bytes_done r segs htv hb hloop
      · exact sync_loop_completed_aux offset count bytes_done r segs (by assumption) hloop
    | fail =>
      simp only [sync_transfer_loop] at hloop
      split at hloop
      · exact absurd hloop (by simp)
      · exact sync_loop_completed_aux offset count bytes_done r segs (by assumption) hloop

/-- Claim C8.  The sync engine's read and write loops retry on `EINTR`
(dropping an `Interrupted` outcome leaves the computation unchanged), loop
on short transfers, and return `Ok(count)` only when the successful
transfers tile exactly the `count` bytes starting at file offset `offset`;
a zero-length `pread` before completion yields `UnexpectedEof` and a
zero-length `pwrite` yields `WriteZero`. -/
theorem sync_engine_transfers_all_bytes :
    (∀ (trace : List PreadRes) (offset count r : Nat) (segs : List (Nat × Nat)),
        trace_valid trace count 0 = true →
        pread_loop offset count trace 0 = some (Except.ok (r, segs)) →
        r = count ∧ covers offset count segs = true)
    ∧ (∀ (trace : List PreadRes) (offset count r : Nat) (segs : List (Nat × Nat)),
        trace_valid trace count 0 = true →
        pwrite_loop offset count trace 0 = some (Except.ok (r, segs)) →
        r = count ∧ covers offset count segs = true)
    ∧ (∀ (trace : List PreadRes) (offset count bytes_done : Nat), bytes_done < count →
        pread_loop offset count (PreadRes.ok 0 :: trace) bytes_done
          = some (Except.error (SyncIoError.PreadPwrite IoErrorKind.UnexpectedEof)))
    ∧ (∀ (trace : List PreadRes) (offset count bytes_done : Nat), bytes_done < count →
        pwrite_loop offset count (PreadRes.ok 0 :: trace) bytes_done
          = some (Except.error (SyncIoError.PreadPwrite IoErrorKind.WriteZero)))
    ∧ (∀ (trace : List PreadRes) (offset count bytes_done : Nat),
        pread_loop offset count (PreadRes.interrupted :: trace) bytes_done
          = pread_loop offset count trace bytes_done)
    ∧ (∀ (trace : List PreadRes) (offset count bytes_done : Nat),
        pwrite_loop offset count (PreadRes.interrupted :: trace) bytes_done
          = pwrite_loop offset count trace bytes_done) := by
  have hretry : ∀ (zero_error : SyncIoError) (trace : List PreadRes)
      (offset count bytes_done : Nat),
      sync_transfer_loop zero_error offset count (PreadRes.interrupted :: trace) bytes_done
        = sync_transfer_loop zero_error offset count trace bytes_done := by
    intro zero_error trace offset count bytes_done
    by_cases h : bytes_done < count
    · simp [sync_transfer_loop, h]
    · cases trace with
      | nil => simp [sync_transfer_loop, h]
      | cons head rest => cases head <;> simp [sync_transfer_loop, h]
  refine ⟨?_, ?_, ?_, ?_, ?_, ?_⟩
  · intro trace offset count r segs htv hloop
    have h := sync_transfer_loop_ok_covers (SyncIoError.PreadPwrite IoErrorKind.UnexpectedEof)
      offset count trace 0 r segs htv (Nat.zero_le count) hloop
    simpa using h
  · intro trace offset count r segs htv hloop
    have h := sync_transfer_loop_ok_covers (SyncIoError.PreadPwrite IoErrorKind.WriteZero)
      offset count trace 0 r segs htv (Nat.zero_le count) hloop
    simpa using h
  · intro trace offset count bytes_done h
    simp [pread_loop, sync_transfer_loop, h]
  · intro trace offset count bytes_done h
    simp [pwrite_loop, sync_transfer_loop, h]
  · intro trace offset count bytes_done
    exact hretry (SyncIoError.PreadPwrite IoErrorKind.UnexpectedEof) trace offset count
      bytes_done
  · intro trace offset count bytes_done
    exact hretry (SyncIoError.PreadPwrite IoErrorKind.WriteZero) trace offset count bytes_done

/-- Witness for C8: a 4-byte read at file offset 100 that is interrupted
once and then completes in two short transfers returns `Ok(4)`, with the
transfers `(100, 2), (102, 2)` tiling the requested range. -/
theorem sync_engine_transfers_all_bytes_witness :
    4 = 4 ∧ covers 100 4 [(100, 2), (102, 2)] = true :=
  sync_engine_transfers_all_bytes.1
    [PreadRes.interrupted, PreadRes.ok 2, PreadRes.ok 2] 100 4 4 [(100, 2), (102, 2)]
    (by decide) rfl
